import Mathlib

set_option maxRecDepth 100000

/-!
Verification of the ListerPros blog-generation pipeline
(scripts/generate_blog_post.py) against its natural-language
specification.  The Python source is shallowly embedded: strings are
lists of characters, the filesystem and the posts.json index are an
explicit state record, the network and the random number generator are
oracle parameters.  All definitions are translated from the source; the
single spec-side definition (extractFirstBalanced) is clearly marked.
-/

namespace ListerPros

/-- The opening-brace character, written via its code point. -/
def lb : Char := Char.ofNat 123

/-- The closing-brace character, written via its code point. -/
def rb : Char := Char.ofNat 125

/-- Python regex \s over ASCII: space, tab, newline, carriage return,
vertical tab, form feed. -/
def isSpaceChar (c : Char) : Bool :=
  c = ' ' || c = '\t' || c = '\n' || c = '\r' || c = '\x0b' || c = '\x0c'

/-- Characters kept by the regex sub removing [^a-z0-9\s-] in create_slug. -/
def keepChar (c : Char) : Bool :=
  c.isLower || c.isDigit || isSpaceChar c || c = '-'

/-- Characters matched by the regex class [\s_] in create_slug. -/
def spaceUnd (c : Char) : Bool :=
  isSpaceChar c || c = '_'

/-- Is the character a hyphen. -/
def isHy (c : Char) : Bool := c = '-'

/-- Model of re.sub with a pattern X+ for a single-character class X,
replacing every maximal run of characters satisfying p with the single
character r.  The flag records whether the previous character was part
of a run. -/
def subRunsAux (p : Char → Bool) (r : Char) : Bool → List Char → List Char
  | _, [] => []
  | inRun, c :: cs =>
    if p c then
      if inRun then subRunsAux p r true cs
      else r :: subRunsAux p r true cs
    else c :: subRunsAux p r false cs

/-- re.sub of a one-character-class plus pattern, starting outside a run. -/
def subRuns (p : Char → Bool) (r : Char) (l : List Char) : List Char :=
  subRunsAux p r false l

/-- Model of Python str.rstrip for a single-character predicate:
drop the maximal trailing run of characters satisfying p. -/
def dropTrailing (p : Char → Bool) : List Char → List Char
  | [] => []
  | c :: cs =>
    let t := dropTrailing p cs
    if t = [] && p c then [] else c :: t

/-- Model of Python str.strip for a single-character predicate. -/
def stripEnds (p : Char → Bool) (l : List Char) : List Char :=
  dropTrailing p (l.dropWhile p)

/-- create_slug on character lists: lower-case, drop characters outside
[a-z0-9\s-], collapse [\s_]+ runs to single hyphens, collapse hyphen
runs, strip leading and trailing hyphens, truncate to 60 characters.
Faithful to create_slug in scripts/generate_blog_post.py; Python
str.lower is modelled on the ASCII range (non-ASCII characters are left
unchanged). -/
def create_slugL (title : List Char) : List Char :=
  (stripEnds isHy (subRuns isHy '-' (subRuns spaceUnd '-'
    ((title.map Char.toLower).filter keepChar)))).take 60

/-- create_slug from the source, on Lean strings. -/
def create_slug (title : String) : String :=
  String.mk (create_slugL title.data)

example : create_slug "5 Tips for Photographing Pools & Patios!" =
    "5-tips-for-photographing-pools-patios" := by decide

example : create_slug "Drone Photography Tips" = "drone-photography-tips" := by
  decide

example : create_slug "  --Hello  World--  " = "hello-world" := by decide

example : create_slug "  --Hello__World--  " = "helloworld" := by decide

/-- A title whose untruncated slug has 61 characters with a hyphen in
position 59: truncation to 60 leaves a trailing hyphen. -/
def slugEdgeTitle : String := String.mk (List.replicate 59 'a' ++ [' ', 'b'])

example : create_slug slugEdgeTitle =
    String.mk (List.replicate 59 'a' ++ ['-']) := by decide

/-- Splitting at the first closing angle bracket: returns the characters
before the first one and the characters after it, or none when the list
has no closing angle bracket. -/
def splitAtGt : List Char → Option (List Char × List Char)
  | [] => none
  | c :: cs =>
    if c = '>' then some ([], cs)
    else (splitAtGt cs).map (fun ia => (c :: ia.1, ia.2))

/-- Fuel-driven model of re.sub removing every tag match of the regex
with an opening angle bracket, one or more non-closing characters, and
a closing angle bracket.  At an opening bracket the engine matches up
to the first closing bracket provided at least one character lies
between, removes the match and continues after it; otherwise the
character is kept.  Fuel equal to the list length suffices because
every step consumes at least one character. -/
def stripTagsFuel : Nat → List Char → List Char
  | 0, l => l
  | _ + 1, [] => []
  | fuel + 1, c :: rest =>
    if c = '<' then
      match splitAtGt rest with
      | some (_ :: _, after) => stripTagsFuel fuel after
      | _ => c :: stripTagsFuel fuel rest
    else c :: stripTagsFuel fuel rest

/-- Strip HTML tags as calculate_read_time does. -/
def stripTags (l : List Char) : List Char := stripTagsFuel l.length l

example : stripTags "<p>one <b>two</b></p>".data = "one two".data := by decide

example : stripTags "a <b and c".data = "a <b and c".data := by decide

example : stripTags "<<a> b <>".data = " b <>".data := by decide

/-- Python str.split with no separator: the maximal runs of
non-whitespace characters, in order.  The accumulator holds the current
word reversed. -/
def wordsOfAux (acc : List Char) : List Char → List (List Char)
  | [] => if acc = [] then [] else [acc.reverse]
  | c :: cs =>
    if isSpaceChar c then
      if acc = [] then wordsOfAux [] cs else acc.reverse :: wordsOfAux [] cs
    else wordsOfAux (c :: acc) cs

/-- Python str.split with no separator. -/
def wordsOf (l : List Char) : List (List Char) := wordsOfAux [] l

example : wordsOf "  one two   three ".data =
    ["one".data, "two".data, "three".data] := by decide

/-- Number of words of a character list, as len of str.split. -/
def countWords (l : List Char) : Nat := (wordsOf l).length

/-- Python round(wc / 200): round half to even.  The quotient wc / 200
is exactly representable around every tie, so the rational rounding is
the float rounding for all realistic word counts. -/
def roundHalfEven200 (wc : Nat) : Nat :=
  if 2 * (wc % 200) < 200 then wc / 200
  else if 200 < 2 * (wc % 200) then wc / 200 + 1
  else if (wc / 200) % 2 = 0 then wc / 200 else wc / 200 + 1

example : roundHalfEven200 100 = 0 := by decide
example : roundHalfEven200 300 = 2 := by decide
example : roundHalfEven200 500 = 2 := by decide
example : roundHalfEven200 400 = 2 := by decide

/-- calculate_read_time from the source: strip tags, count words,
divide by 200 words per minute rounding half to even, floor at one. -/
def calculate_read_time (content : String) : Nat :=
  max 1 (roundHalfEven200 (countWords (stripTags content.data)))

/-- Python str.title on the ASCII range: a letter that follows a
non-letter is upper-cased, a letter that follows a letter is
lower-cased.  The flag records whether the previous character was a
letter. -/
def titleCaseAux : Bool → List Char → List Char
  | _, [] => []
  | prevAlpha, c :: cs =>
    if c.isAlpha then
      (if prevAlpha then c.toLower else c.toUpper) :: titleCaseAux true cs
    else c :: titleCaseAux false cs

/-- Python str.title on character lists. -/
def titleCaseL (l : List Char) : List Char := titleCaseAux false l

/-- Python str.title on Lean strings. -/
def titleCase (s : String) : String := String.mk (titleCaseL s.data)

example : titleCase "drone photography tips" = "Drone Photography Tips" := by
  decide

/-- format_category from the source: replace underscores with spaces
and title-case. -/
def format_category (category : String) : String :=
  titleCase (String.mk (category.data.map (fun c => if c = '_' then ' ' else c)))

example : format_category "arizona_market" = "Arizona Market" := by decide

/-- The body of the read-time test input: the word block repeated 400
times. -/
def c3Body : List Char := (List.replicate 400 "word ".data).flatten

/-- The read-time test input from the specification. -/
def c3Input : String := String.mk ("<p>".data ++ c3Body ++ "</p>".data)

theorem wordsOfAux_wordBlock (l : List Char) :
    wordsOfAux [] ("word ".data ++ l) = "word".data :: wordsOfAux [] l := by
  simp [wordsOfAux, isSpaceChar]

theorem countWords_replicate (n : Nat) :
    countWords (List.replicate n "word ".data).flatten = n := by
  induction n with
  | zero => rfl
  | succ k ih =>
    have : (List.replicate (k + 1) "word ".data).flatten =
        "word ".data ++ (List.replicate k "word ".data).flatten := by
      simp [List.replicate_succ]
    unfold countWords wordsOf at ih ⊢
    rw [this, wordsOfAux_wordBlock]
    simpa using ih

theorem stripTagsFuel_append_no_lt (b : List Char) (k : Nat) (t : List Char)
    (h : ∀ c ∈ b, c ≠ '<') :
    stripTagsFuel (b.length + k) (b ++ t) = b ++ stripTagsFuel k t := by
  induction b with
  | nil => simp
  | cons c b2 ih =>
    have hc : c ≠ '<' := h c (List.mem_cons_self c b2)
    have hrest : ∀ x ∈ b2, x ≠ '<' := fun x hx => h x (List.mem_cons_of_mem c hx)
    have harith : (c :: b2).length + k = (b2.length + k) + 1 := by
      simp [List.length_cons]; omega
    rw [harith]
    show stripTagsFuel (b2.length + k + 1) (c :: (b2 ++ t)) = c :: (b2 ++ stripTagsFuel k t)
    rw [stripTagsFuel]
    simp [hc, ih hrest]

theorem c3Body_no_lt : ∀ c ∈ c3Body, c ≠ '<' := by
  intro c hc
  rw [c3Body, List.mem_flatten] at hc
  obtain ⟨l, hl, hcl⟩ := hc
  rw [List.mem_replicate] at hl
  obtain ⟨-, rfl⟩ := hl
  have hw : "word ".data = ['w', 'o', 'r', 'd', ' '] := rfl
  rw [hw] at hcl
  simp only [List.mem_cons, List.not_mem_nil, or_false] at hcl
  rcases hcl with rfl | rfl | rfl | rfl | rfl <;> decide

theorem stripTags_p_wrap (b : List Char) (hb : ∀ c ∈ b, c ≠ '<') :
    stripTags ("<p>".data ++ b ++ "</p>".data) = b := by
  unfold stripTags
  have hlen : ("<p>".data ++ b ++ "</p>".data).length = (b.length + 6) + 1 := by
    simp [List.length_append]
  rw [hlen]
  show stripTagsFuel ((b.length + 6) + 1)
      ('<' :: 'p' :: '>' :: (b ++ "</p>".data)) = b
  rw [stripTagsFuel]
  have hsplit : splitAtGt ('p' :: '>' :: (b ++ "</p>".data)) =
      some (['p'], b ++ "</p>".data) := by
    simp [splitAtGt]
  rw [if_pos rfl, hsplit]
  show stripTagsFuel (b.length + 6) (b ++ "</p>".data) = b
  rw [stripTagsFuel_append_no_lt b 6 _ hb]
  have : stripTagsFuel 6 "</p>".data = [] := by decide
  simp [this]

theorem calc_read_time_400 : calculate_read_time c3Input = 2 := by
  unfold calculate_read_time
  have hdata : c3Input.data = "<p>".data ++ c3Body ++ "</p>".data := rfl
  rw [hdata, stripTags_p_wrap c3Body c3Body_no_lt]
  have : countWords c3Body = 400 := countWords_replicate 400
  rw [this]
  decide

/-! Character classification bridges between the Bool-valued ASCII
predicates of the core library and Nat code-point ranges. -/

theorem isLower_iff (c : Char) : c.isLower = true ↔ (97 ≤ c.toNat ∧ c.toNat ≤ 122) := by
  unfold Char.isLower Char.toNat UInt32.toNat
  simp only [Bool.and_eq_true, decide_eq_true_eq, ge_iff_le, UInt32.le_def, BitVec.le_def]
  have h1 : (97 : UInt32).toBitVec.toNat = 97 := rfl
  have h2 : (122 : UInt32).toBitVec.toNat = 122 := rfl
  rw [h1, h2]

theorem isUpper_iff (c : Char) : c.isUpper = true ↔ (65 ≤ c.toNat ∧ c.toNat ≤ 90) := by
  unfold Char.isUpper Char.toNat UInt32.toNat
  simp only [Bool.and_eq_true, decide_eq_true_eq, ge_iff_le, UInt32.le_def, BitVec.le_def]
  have h1 : (65 : UInt32).toBitVec.toNat = 65 := rfl
  have h2 : (90 : UInt32).toBitVec.toNat = 90 := rfl
  rw [h1, h2]

theorem isDigit_iff (c : Char) : c.isDigit = true ↔ (48 ≤ c.toNat ∧ c.toNat ≤ 57) := by
  unfold Char.isDigit Char.toNat UInt32.toNat
  simp only [Bool.and_eq_true, decide_eq_true_eq, ge_iff_le, UInt32.le_def, BitVec.le_def]
  have h1 : (48 : UInt32).toBitVec.toNat = 48 := rfl
  have h2 : (57 : UInt32).toBitVec.toNat = 57 := rfl
  rw [h1, h2]

theorem toLower_eq_self (c : Char) (h : c.isUpper = false) : c.toLower = c := by
  unfold Char.toLower
  rw [if_neg]
  intro hc
  unfold Char.isUpper at h
  simp only [Bool.and_eq_false_iff, decide_eq_false_iff_not] at h
  obtain ⟨h1, h2⟩ := hc
  unfold Char.toNat UInt32.toNat at h1 h2
  rcases h with h | h
  · simp only [ge_iff_le, UInt32.not_le, UInt32.lt_def, BitVec.lt_def] at h
    have h65 : (65 : UInt32).toBitVec.toNat = 65 := rfl
    rw [h65] at h
    omega
  · simp only [UInt32.not_le, UInt32.lt_def, BitVec.lt_def] at h
    have h90 : (90 : UInt32).toBitVec.toNat = 90 := rfl
    rw [h90] at h
    omega

/-- Characters of a finished slug: lower-case letter, digit, or hyphen. -/
def slugChar (c : Char) : Prop :=
  c.isLower = true ∨ c.isDigit = true ∨ c = '-'

theorem slugChar_not_upper (c : Char) (h : slugChar c) : c.isUpper = false := by
  rcases h with h | h | rfl
  · rw [isLower_iff] at h
    cases hu : c.isUpper with
    | false => rfl
    | true => rw [isUpper_iff] at hu; omega
  · rw [isDigit_iff] at h
    cases hu : c.isUpper with
    | false => rfl
    | true => rw [isUpper_iff] at hu; omega
  · decide

theorem slugChar_toLower (c : Char) (h : slugChar c) : c.toLower = c :=
  toLower_eq_self c (slugChar_not_upper c h)

theorem slugChar_keep (c : Char) (h : slugChar c) : keepChar c = true := by
  unfold keepChar
  rcases h with h | h | rfl
  · simp [h]
  · simp [h]
  · decide

theorem spaceUnd_eq_false_of_range (c : Char)
    (h : (97 ≤ c.toNat ∧ c.toNat ≤ 122) ∨ (48 ≤ c.toNat ∧ c.toNat ≤ 57)) :
    spaceUnd c = false := by
  unfold spaceUnd isSpaceChar
  have h1 : c ≠ ' ' := fun he => by subst he; revert h; decide
  have h2 : c ≠ '\t' := fun he => by subst he; revert h; decide
  have h3 : c ≠ '\n' := fun he => by subst he; revert h; decide
  have h4 : c ≠ '\r' := fun he => by subst he; revert h; decide
  have h5 : c ≠ '\x0b' := fun he => by subst he; revert h; decide
  have h6 : c ≠ '\x0c' := fun he => by subst he; revert h; decide
  have h7 : c ≠ '_' := fun he => by subst he; revert h; decide
  simp [h1, h2, h3, h4, h5, h6, h7]

theorem slugChar_not_spaceUnd (c : Char) (h : slugChar c) : spaceUnd c = false := by
  rcases h with h | h | rfl
  · exact spaceUnd_eq_false_of_range c (Or.inl ((isLower_iff c).mp h))
  · exact spaceUnd_eq_false_of_range c (Or.inr ((isDigit_iff c).mp h))
  · decide

/-! Runs of hyphens. -/

/-- No two adjacent hyphens. -/
def noAdjHy : List Char → Bool
  | c :: d :: rest => (!(isHy c && isHy d)) && noAdjHy (d :: rest)
  | _ => true

theorem noAdjHy_cons (c : Char) (l : List Char) :
    noAdjHy (c :: l) = true ↔
      ((∀ d, l.head? = some d → (isHy c && isHy d) = false) ∧ noAdjHy l = true) := by
  cases l with
  | nil => simp [noAdjHy]
  | cons d rest =>
    show noAdjHy (c :: d :: rest) = true ↔ _
    rw [noAdjHy]
    simp only [Bool.and_eq_true, Bool.not_eq_true', List.head?_cons]
    constructor
    · rintro ⟨h1, h2⟩
      exact ⟨fun e he => by injection he with he; rw [← he]; exact h1, h2⟩
    · rintro ⟨h1, h2⟩
      exact ⟨h1 d rfl, h2⟩

theorem mem_subRunsAux (p : Char → Bool) (r : Char) (b : Bool) (l : List Char) (c : Char)
    (h : c ∈ subRunsAux p r b l) : c = r ∨ (c ∈ l ∧ p c = false) := by
  induction l generalizing b with
  | nil => simp [subRunsAux] at h
  | cons a as ih =>
    rw [subRunsAux] at h
    by_cases hpa : p a = true
    · rw [if_pos hpa] at h
      cases b with
      | true =>
        simp only [if_pos rfl] at h
        rcases ih true h with h1 | ⟨h1, h2⟩
        · exact Or.inl h1
        · exact Or.inr ⟨List.mem_cons_of_mem a h1, h2⟩
      | false =>
        simp only [Bool.false_eq_true, if_false] at h
        rcases List.mem_cons.mp h with rfl | h2
        · exact Or.inl rfl
        · rcases ih true h2 with h1 | ⟨h1, h3⟩
          · exact Or.inl h1
          · exact Or.inr ⟨List.mem_cons_of_mem a h1, h3⟩
    · rw [if_neg hpa] at h
      rcases List.mem_cons.mp h with rfl | h2
      · exact Or.inr ⟨List.mem_cons_self c as, Bool.not_eq_true _ ▸ hpa⟩
      · rcases ih false h2 with h1 | ⟨h1, h3⟩
        · exact Or.inl h1
        · exact Or.inr ⟨List.mem_cons_of_mem a h1, h3⟩

theorem subRunsAux_eq_self (p : Char → Bool) (r : Char) (b : Bool) (l : List Char)
    (h : ∀ c ∈ l, p c = false) : subRunsAux p r b l = l := by
  induction l generalizing b with
  | nil => rfl
  | cons a as ih =>
    rw [subRunsAux]
    have hpa : p a = false := h a (List.mem_cons_self a as)
    rw [if_neg (by simp [hpa])]
    rw [ih false (fun c hc => h c (List.mem_cons_of_mem a hc))]

theorem subRunsAux_isHy_noAdj (l : List Char) (b : Bool) :
    noAdjHy (subRunsAux isHy '-' b l) = true ∧
      (b = true → (subRunsAux isHy '-' b l).head? ≠ some '-') := by
  induction l generalizing b with
  | nil => exact ⟨rfl, fun _ => by simp [subRunsAux]⟩
  | cons a as ih =>
    by_cases ha : isHy a = true
    · cases b with
      | true =>
        rw [subRunsAux, if_pos ha, if_pos rfl]
        exact ⟨(ih true).1, fun _ => (ih true).2 rfl⟩
      | false =>
        rw [subRunsAux, if_pos ha]
        simp only [Bool.false_eq_true, if_false]
        constructor
        · rw [noAdjHy_cons]
          refine ⟨fun d hd => ?_, (ih true).1⟩
          have hne : d ≠ '-' := fun hdd => (ih true).2 rfl (hdd ▸ hd)
          simp [isHy, hne]
        · intro hb
          exact absurd hb (by simp)
    · rw [subRunsAux, if_neg ha]
      have hane : a ≠ '-' := fun hda => ha (by simp [isHy, hda])
      constructor
      · rw [noAdjHy_cons]
        refine ⟨fun d _ => ?_, (ih false).1⟩
        simp [isHy, hane]
      · intro _
        simp only [List.head?_cons, ne_eq, Option.some.injEq]
        exact hane

theorem subRunsAux_isHy_fix (l : List Char) (hadj : noAdjHy l = true) :
    subRunsAux isHy '-' false l = l ∧
      (l.head? ≠ some '-' → subRunsAux isHy '-' true l = l) := by
  induction l with
  | nil => exact ⟨rfl, fun _ => rfl⟩
  | cons a as ih =>
    rw [noAdjHy_cons] at hadj
    obtain ⟨hpair, htail⟩ := hadj
    obtain ⟨ih1, ih2⟩ := ih htail
    constructor
    · rw [subRunsAux]
      by_cases ha : isHy a = true
      · rw [if_pos ha]
        simp only [Bool.false_eq_true, if_false]
        have haeq : a = '-' := by
          unfold isHy at ha
          exact of_decide_eq_true ha
        have hasne : as.head? ≠ some '-' := by
          intro hh
          have := hpair '-' hh
          rw [ha] at this
          simp [isHy] at this
        rw [ih2 hasne, haeq]
      · rw [if_neg ha, ih1]
    · intro hhead
      rw [subRunsAux]
      have ha : isHy a = false := by
        simp only [List.head?_cons, ne_eq, Option.some.injEq] at hhead
        simp [isHy, hhead]
      rw [if_neg (by simp [ha]), ih1]

/-! Strip lemmas. -/

theorem mem_dropTrailing (p : Char → Bool) (l : List Char) (c : Char)
    (h : c ∈ dropTrailing p l) : c ∈ l := by
  induction l with
  | nil => simp [dropTrailing] at h
  | cons a as ih =>
    simp only [dropTrailing] at h
    split at h
    · simp at h
    · rcases List.mem_cons.mp h with rfl | h2
      · exact List.mem_cons_self c as
      · exact List.mem_cons_of_mem a (ih h2)

theorem dropTrailing_head (p : Char → Bool) (l : List Char) :
    dropTrailing p l = [] ∨ (dropTrailing p l).head? = l.head? := by
  cases l with
  | nil => exact Or.inl rfl
  | cons c cs =>
    simp only [dropTrailing]
    split
    · exact Or.inl rfl
    · exact Or.inr rfl

theorem dropTrailing_getLast (p : Char → Bool) (l : List Char) (c : Char)
    (h : (dropTrailing p l).getLast? = some c) : p c = false := by
  induction l with
  | nil => simp [dropTrailing] at h
  | cons a as ih =>
    simp only [dropTrailing] at h
    split at h
    · simp at h
    · rename_i hcond
      cases ht : dropTrailing p as with
      | nil =>
        rw [ht] at h
        simp only [List.getLast?_singleton, Option.some.injEq] at h
        subst h
        rw [ht] at hcond
        simpa using hcond
      | cons b bs =>
        rw [ht] at h
        rw [List.getLast?_cons_cons] at h
        exact ih (ht ▸ h)

theorem dropTrailing_eq_self (p : Char → Bool) (l : List Char)
    (h : ∀ c, l.getLast? = some c → p c = false) : dropTrailing p l = l := by
  induction l with
  | nil => rfl
  | cons a as ih =>
    simp only [dropTrailing]
    cases has : as with
    | nil =>
      have hpa : p a = false := h a (by rw [has]; rfl)
      subst has
      simp [dropTrailing, hpa]
    | cons b bs =>
      have hih : dropTrailing p as = as := by
        apply ih
        intro c hc
        apply h
        rw [has, List.getLast?_cons_cons, ← has, hc]
      rw [← has, hih, has]
      simp

theorem noAdjHy_tail (c : Char) (l : List Char) (h : noAdjHy (c :: l) = true) :
    noAdjHy l = true := ((noAdjHy_cons c l).mp h).2

theorem noAdjHy_dropWhile (p : Char → Bool) (l : List Char) (h : noAdjHy l = true) :
    noAdjHy (l.dropWhile p) = true := by
  induction l with
  | nil => exact h
  | cons a as ih =>
    rw [List.dropWhile_cons]
    split
    · exact ih (noAdjHy_tail a as h)
    · exact h

theorem noAdjHy_dropTrailing (p : Char → Bool) (l : List Char) (h : noAdjHy l = true) :
    noAdjHy (dropTrailing p l) = true := by
  induction l with
  | nil => exact h
  | cons a as ih =>
    rw [noAdjHy_cons] at h
    obtain ⟨hpair, htail⟩ := h
    simp only [dropTrailing]
    split
    · rfl
    · rw [noAdjHy_cons]
      refine ⟨fun d hd => ?_, ih htail⟩
      rcases dropTrailing_head p as with he | he
      · rw [he] at hd
        simp at hd
      · rw [he] at hd
        exact hpair d hd

theorem noAdjHy_take (l : List Char) (n : Nat) (h : noAdjHy l = true) :
    noAdjHy (l.take n) = true := by
  induction l generalizing n with
  | nil => simp [noAdjHy]
  | cons a as ih =>
    cases n with
    | zero => rfl
    | succ m =>
      rw [List.take_succ_cons, noAdjHy_cons]
      rw [noAdjHy_cons] at h
      obtain ⟨hpair, htail⟩ := h
      refine ⟨fun d hd => ?_, ih m htail⟩
      apply hpair
      cases as with
      | nil => simp at hd
      | cons b bs =>
        cases m with
        | zero => simp at hd
        | succ k =>
          rw [List.take_succ_cons] at hd
          simpa using hd

theorem dropWhile_head_not (p : Char → Bool) (l : List Char) (c : Char)
    (h : (l.dropWhile p).head? = some c) : p c = false := by
  induction l with
  | nil => simp at h
  | cons a as ih =>
    rw [List.dropWhile_cons] at h
    split at h
    · exact ih h
    · rename_i hpa
      simp only [List.head?_cons, Option.some.injEq] at h
      subst h
      simpa using hpa

/-! Shape facts about create_slug. -/

theorem create_slugL_mem (t : List Char) :
    ∀ c ∈ create_slugL t, slugChar c := by
  intro c hc
  unfold create_slugL stripEnds at hc
  have h5 := List.take_subset 60 _ hc
  have h4 := mem_dropTrailing _ _ _ h5
  have h3 := List.dropWhile_subset _ h4
  rcases mem_subRunsAux _ _ _ _ _ h3 with rfl | ⟨h2, hnh⟩
  · exact Or.inr (Or.inr rfl)
  · rcases mem_subRunsAux _ _ _ _ _ h2 with rfl | ⟨h1, hns⟩
    · exact Or.inr (Or.inr rfl)
    · have := List.mem_filter.mp h1
      have hk := this.2
      unfold keepChar at hk
      simp only [Bool.or_eq_true] at hk
      rcases hk with ((hl | hd) | hs) | hh
      · exact Or.inl hl
      · exact Or.inr (Or.inl hd)
      · exfalso
        unfold spaceUnd at hns
        rw [Bool.or_eq_false_iff] at hns
        rw [hns.1] at hs
        exact absurd hs Bool.false_ne_true
      · exact Or.inr (Or.inr (of_decide_eq_true hh))

theorem create_slugL_noAdj (t : List Char) : noAdjHy (create_slugL t) = true := by
  unfold create_slugL stripEnds
  apply noAdjHy_take
  apply noAdjHy_dropTrailing
  apply noAdjHy_dropWhile
  exact (subRunsAux_isHy_noAdj _ false).1

theorem create_slugL_head (t : List Char) : (create_slugL t).head? ≠ some '-' := by
  unfold create_slugL stripEnds
  intro h
  rw [List.head?_take] at h
  simp only [ite_eq_iff] at h
  rcases h with ⟨h0, _⟩ | ⟨_, h⟩
  · omega
  · rcases dropTrailing_head isHy (List.dropWhile isHy _) with he | he
    · rw [he] at h
      simp at h
    · rw [he] at h
      have := dropWhile_head_not isHy _ _ h
      simp [isHy] at this

theorem create_slugL_len (t : List Char) : (create_slugL t).length ≤ 60 := by
  unfold create_slugL
  exact List.length_take_le 60 _

theorem map_toLower_eq_self (l : List Char) (h : ∀ c ∈ l, slugChar c) :
    l.map Char.toLower = l := by
  induction l with
  | nil => rfl
  | cons a as ih =>
    rw [List.map_cons, slugChar_toLower a (h a (List.mem_cons_self a as)),
      ih (fun c hc => h c (List.mem_cons_of_mem a hc))]

theorem dropWhile_isHy_eq_self (l : List Char) (h : l.head? ≠ some '-') :
    l.dropWhile isHy = l := by
  cases l with
  | nil => rfl
  | cons a as =>
    simp only [List.head?_cons, ne_eq, Option.some.injEq] at h
    rw [List.dropWhile_cons_of_neg]
    simp [isHy, h]

theorem create_slugL_fixed (l : List Char)
    (hmem : ∀ c ∈ l, slugChar c)
    (hadj : noAdjHy l = true)
    (hhead : l.head? ≠ some '-')
    (hlast : l.getLast? ≠ some '-')
    (hlen : l.length ≤ 60) :
    create_slugL l = l := by
  unfold create_slugL stripEnds
  rw [map_toLower_eq_self l hmem]
  rw [List.filter_eq_self.mpr (fun c hc => slugChar_keep c (hmem c hc))]
  unfold subRuns
  rw [subRunsAux_eq_self spaceUnd '-' false l
    (fun c hc => slugChar_not_spaceUnd c (hmem c hc))]
  rw [(subRunsAux_isHy_fix l hadj).1]
  rw [dropWhile_isHy_eq_self l hhead]
  rw [dropTrailing_eq_self isHy l (fun c hc => by
    simp only [hc, ne_eq, Option.some.injEq] at hlast
    simp [isHy, hlast])]
  exact List.take_of_length_le hlen

/-- Claim C2, counterexample: create_slug is not idempotent and its
output can end in a hyphen.  The title of 59 letters, a space and one
more letter slugs to 59 letters followed by a hyphen (truncation at 60
cuts right after the hyphen that replaced the space), and a second
application strips that trailing hyphen. -/
theorem create_slug_counterexample :
    create_slug (create_slug slugEdgeTitle) ≠ create_slug slugEdgeTitle ∧
      (create_slug slugEdgeTitle).data.getLast? = some '-' := by
  constructor
  · decide
  · decide

/-- Claim C2 (amended): for every string, create_slug produces only
lower-case letters, digits and hyphens, with no two adjacent hyphens,
no leading hyphen, and length at most 60; and whenever the output does
not end in a hyphen (the truncation at 60 characters is the only way it
can), applying create_slug again is a no-op. -/
theorem create_slug_shape (s : String) :
    (∀ c ∈ (create_slug s).data, c.isLower = true ∨ c.isDigit = true ∨ c = '-') ∧
    noAdjHy (create_slug s).data = true ∧
    (create_slug s).data.head? ≠ some '-' ∧
    (create_slug s).data.length ≤ 60 ∧
    ((create_slug s).data.getLast? ≠ some '-' →
      create_slug (create_slug s) = create_slug s) := by
  have hd : (create_slug s).data = create_slugL s.data := rfl
  refine ⟨?_, ?_, ?_, ?_, ?_⟩
  · rw [hd]; exact create_slugL_mem s.data
  · rw [hd]; exact create_slugL_noAdj s.data
  · rw [hd]; exact create_slugL_head s.data
  · rw [hd]; exact create_slugL_len s.data
  · intro hlast
    show String.mk (create_slugL (create_slug s).data) = create_slug s
    rw [hd] at hlast ⊢
    rw [create_slugL_fixed (create_slugL s.data) (create_slugL_mem s.data)
      (create_slugL_noAdj s.data) (create_slugL_head s.data) hlast
      (create_slugL_len s.data)]
    rfl

/-- Claim C2 witness: a concrete title on which the amended idempotence
holds. -/
theorem create_slug_shape_witness :
    create_slug (create_slug "Hello World") = create_slug "Hello World" :=
  (create_slug_shape "Hello World").2.2.2.2 (by decide)

/-- Claim C3: the four-hundred-word paragraph reads in two minutes, and
any content with fewer than two hundred words reads in one minute,
never zero. -/
theorem calculate_read_time_spec :
    calculate_read_time c3Input = 2 ∧
    ∀ content : String, countWords (stripTags content.data) < 200 →
      calculate_read_time content = 1 := by
  refine ⟨calc_read_time_400, fun content h => ?_⟩
  unfold calculate_read_time roundHalfEven200
  rw [Nat.mod_eq_of_lt h, Nat.div_eq_of_lt h]
  split
  · omega
  · split
    · omega
    · split <;> omega

/-- Claim C3 witness: a concrete short content string has read time
one. -/
theorem calculate_read_time_spec_witness :
    countWords (stripTags "hi there".data) < 200 ∧
      calculate_read_time "hi there" = 1 :=
  ⟨by decide, calculate_read_time_spec.2 "hi there" (by decide)⟩

/-! Titles without ASCII letters or digits slug to the empty string. -/

theorem dropWhile_eq_nil_of_all (p : Char → Bool) (l : List Char)
    (h : ∀ c ∈ l, p c = true) : l.dropWhile p = [] := by
  induction l with
  | nil => rfl
  | cons a as ih =>
    rw [List.dropWhile_cons_of_pos (h a (List.mem_cons_self a as))]
    exact ih (fun c hc => h c (List.mem_cons_of_mem a hc))

theorem map_toLower_no_alpha (t : List Char) (h : ∀ c ∈ t, c.isAlpha = false) :
    t.map Char.toLower = t := by
  induction t with
  | nil => rfl
  | cons a as ih =>
    have ha := h a (List.mem_cons_self a as)
    unfold Char.isAlpha at ha
    rw [Bool.or_eq_false_iff] at ha
    rw [List.map_cons, toLower_eq_self a ha.1,
      ih (fun c hc => h c (List.mem_cons_of_mem a hc))]

theorem subRuns_all_hyphen (t : List Char)
    (h : ∀ c ∈ t, c.isAlpha = false ∧ c.isDigit = false) :
    ∀ c ∈ subRuns isHy '-' (subRuns spaceUnd '-' (t.filter keepChar)), c = '-' := by
  intro c hc
  rcases mem_subRunsAux _ _ _ _ _ hc with rfl | ⟨h2, _⟩
  · rfl
  rcases mem_subRunsAux _ _ _ _ _ h2 with rfl | ⟨h1, hns⟩
  · rfl
  have hm := List.mem_filter.mp h1
  have hk := hm.2
  have hno := h c hm.1
  have hlow : c.isLower = false := by
    have hal := hno.1
    unfold Char.isAlpha at hal
    rw [Bool.or_eq_false_iff] at hal
    exact hal.2
  unfold keepChar at hk
  unfold spaceUnd at hns
  rw [Bool.or_eq_false_iff] at hns
  simp only [hlow, hno.2, hns.1, Bool.or_false, Bool.false_or] at hk
  exact of_decide_eq_true hk

theorem create_slugL_all_stripped (t : List Char)
    (h : ∀ c ∈ t, c.isAlpha = false ∧ c.isDigit = false) :
    create_slugL t = [] := by
  unfold create_slugL stripEnds
  rw [map_toLower_no_alpha t (fun c hc => (h c hc).1)]
  rw [dropWhile_eq_nil_of_all isHy _ (fun c hc => by
    have := subRuns_all_hyphen t h c hc
    simp [isHy, this])]
  rfl

/-! JSON extraction from free-text replies.  Both search_trending_topics
and generate_blog_content run re.search with the pattern of an opening
brace, a greedy any-character star, and a closing brace, and parse the
whole match.  A greedy star means the match, when one exists, runs from
the first opening brace of the reply to the last closing brace. -/

/-- The span matched by the extraction regex of the source: from the
first opening brace to the last closing brace, none when no such span
exists. -/
def extractJsonSpan (l : List Char) : Option (List Char) :=
  match (l.dropWhile (fun c => c != lb)).reverse.dropWhile (fun c => c != rb) with
  | [] => none
  | r => some r.reverse

example : extractJsonSpan "no braces at all".data = none := by decide

example : extractJsonSpan "x \x7b\"k\": 1\x7d y".data =
    some "\x7b\"k\": 1\x7d".data := by decide

/-- Following the words of the specification only (Design Notes,
embedded-JSON extraction): scan with a depth counter and return the
prefix up to the brace closing the first opening brace. -/
def takeBalanced : List Char → Nat → Option (List Char)
  | [], _ => none
  | c :: cs, depth =>
    if c = lb then (takeBalanced cs (depth + 1)).map (fun m => c :: m)
    else if c = rb then
      if depth ≤ 1 then some [c]
      else (takeBalanced cs (depth - 1)).map (fun m => c :: m)
    else (takeBalanced cs depth).map (fun m => c :: m)

/-- Following the words of the specification only (Design Notes): the
first balanced brace-delimited substring of the reply. -/
def extractFirstBalanced (l : List Char) : Option (List Char) :=
  match l.dropWhile (fun c => c != lb) with
  | [] => none
  | t => takeBalanced t 0

/-- The reply with two disjoint JSON objects from claim C4. -/
def c4Reply : String := "\x7b\"a\": 1\x7d \x7b\"b\": 2\x7d"

/-- The first of the two objects in the reply. -/
def c4FirstObj : String := "\x7b\"a\": 1\x7d"

/-- Claim C4, counterexample: on a reply containing two disjoint JSON
objects the source extraction returns the whole greedy span covering
both objects, not the first object; the balanced extraction the
specification prescribes would have returned the first object. -/
theorem extract_json_counterexample :
    extractJsonSpan c4Reply.data = some c4Reply.data ∧
      extractJsonSpan c4Reply.data ≠ some c4FirstObj.data ∧
      extractFirstBalanced c4Reply.data = some c4FirstObj.data :=
  ⟨by decide, by decide, by decide⟩

/-- Claim C4 (amended): the extraction used by the topic selector and
the content generator is a single greedy regex match, not a fallback
chain: whenever it returns a span, the span runs from the first opening
brace of the reply (nothing before it holds an opening brace) to the
last closing brace (nothing after it holds a closing brace). -/
theorem extract_json_span_spec (l m : List Char)
    (h : extractJsonSpan l = some m) :
    ∃ pre post, l = pre ++ m ++ post ∧
      (∀ c ∈ pre, c ≠ lb) ∧ (∀ c ∈ post, c ≠ rb) ∧
      m.head? = some lb ∧ m.getLast? = some rb := by
  unfold extractJsonSpan at h
  set t := l.dropWhile (fun c => c != lb) with ht
  set r := t.reverse.dropWhile (fun c => c != rb) with hr
  have hrne : r ≠ [] := by
    intro he
    rw [he] at h
    simp at h
  have hm : m = r.reverse := by
    cases hrv : r with
    | nil => exact absurd hrv hrne
    | cons a as =>
      rw [hrv] at h
      simp only [Option.some.injEq] at h
      rw [← h]
  refine ⟨l.takeWhile (fun c => c != lb),
    (t.reverse.takeWhile (fun c => c != rb)).reverse, ?_, ?_, ?_, ?_, ?_⟩
  · have h1 : l = l.takeWhile (fun c => c != lb) ++ t :=
      (List.takeWhile_append_dropWhile _ _).symm
    have h2 : t.reverse = t.reverse.takeWhile (fun c => c != rb) ++ r :=
      (List.takeWhile_append_dropWhile _ _).symm
    have h3 : t = r.reverse ++ (t.reverse.takeWhile (fun c => c != rb)).reverse := by
      have := congrArg List.reverse h2
      rw [List.reverse_reverse, List.reverse_append] at this
      exact this
    rw [hm, List.append_assoc, ← h3]
    exact h1
  · intro c hc
    have := List.mem_takeWhile_imp hc
    simpa using this
  · intro c hc
    rw [List.mem_reverse] at hc
    have := List.mem_takeWhile_imp hc
    simpa using this
  · have hmpre : t = m ++ (t.reverse.takeWhile (fun c => c != rb)).reverse := by
      have h2 : t.reverse = t.reverse.takeWhile (fun c => c != rb) ++ r :=
        (List.takeWhile_append_dropWhile _ _).symm
      have h3 := congrArg List.reverse h2
      rw [List.reverse_reverse, List.reverse_append] at h3
      rw [hm]
      exact h3
    have hmne : m ≠ [] := by
      rw [hm]
      simpa using hrne
    have hth : ∀ d, t.head? = some d → d = lb := by
      intro d hd
      have := dropWhile_head_not (fun c => c != lb) l d (ht ▸ hd)
      simpa using this
    obtain ⟨b, bs, hbv⟩ := List.exists_cons_of_ne_nil hmne
    have htb : t.head? = some b := by
      rw [hmpre, hbv]
      rfl
    rw [hbv, List.head?_cons, hth b htb]
  · rw [hm, List.getLast?_reverse]
    cases hrv : r with
    | nil => exact absurd hrv hrne
    | cons a as =>
      have := dropWhile_head_not (fun c => c != rb) t.reverse a (by rw [← hr, hrv]; rfl)
      simp only [bne_eq_false_iff_eq] at this
      rw [List.head?_cons, this]

/-- Claim C4 witness: the span characterisation applied to the
two-object reply, on which the extraction returns the whole reply. -/
theorem extract_json_span_spec_witness :
    ∃ pre post, c4Reply.data = pre ++ c4Reply.data ++ post ∧
      (∀ c ∈ pre, c ≠ lb) ∧ (∀ c ∈ post, c ≠ rb) ∧
      c4Reply.data.head? = some lb ∧ c4Reply.data.getLast? = some rb :=
  extract_json_span_spec c4Reply.data c4Reply.data (by decide)

/-! The pipeline data model.  Strings are Lean strings, the filesystem
is an association list from filenames to contents, the posts.json index
is an optional list of records (none when the file does not exist), the
network is an optional reply string (none for any transport error,
non-success status, or malformed envelope), the external json library
is an oracle parse function, and the random sampler is an oracle
index. -/

/-- A record of the persisted posts.json index, with the fields written
by save_blog_post. -/
structure PostEntry where
  slug : String
  title : String
  excerpt : String
  category : String
  date : String
  formatted_date : String
  read_time : Nat
  featured_image : String
  tags : List String
  filename : String
  deriving DecidableEq

/-- The transient content payload produced by the content generator and
consumed by save_blog_post.  Optional fields model dict keys read with
a get and a default. -/
structure BlogData where
  title : String
  meta_description : String
  content : String
  excerpt : Option String
  tags : Option (List String)
  category : Option String
  keywords : Option (List String)
  deriving DecidableEq

/-- The fields of a parsed topic reply, before the selector adds the
category. -/
structure TopicFields where
  title : String
  search_query : Option String
  angle : Option String
  target_keywords : Option (List String)
  search_intent : Option String
  deriving DecidableEq

/-- The transient topic descriptor produced by the topic selector. -/
structure TopicData where
  title : String
  search_query : Option String
  angle : Option String
  target_keywords : Option (List String)
  search_intent : Option String
  category : String
  deriving DecidableEq

/-- The observable state of a pipeline run: the files written, the
posts.json index (none when the file does not exist), and whether the
publish step ran. -/
structure PipelineState where
  files : List (String × String)
  postsJson : Option (List PostEntry)
  published : Bool
  deriving DecidableEq

/-- Write a file: overwrite the entry with the same name or append a
new one. -/
def writeFile : List (String × String) → String → String → List (String × String)
  | [], n, c => [(n, c)]
  | (k, v) :: rest, n, c =>
    if k = n then (k, c) :: rest else (k, v) :: writeFile rest n c

/-- The fallback topic descriptor built purely from the locally chosen
topic seed: title-cased text, the seed as search query, a fixed angle,
and the first three words as keywords. -/
def fallbackTopic (category base_topic : String) : TopicData :=
  { title := titleCase base_topic,
    search_query := some base_topic,
    angle := some "comprehensive guide",
    target_keywords := some (((wordsOf base_topic.data).map String.mk).take 3),
    search_intent := none,
    category := category }

/-- search_trending_topics from the source.  The category and seed are
the two random draws, resp is the reply content (none for any request
failure), parse is the external json parser.  Any failure falls back to
the deterministic local descriptor; a parsed reply gets the locally
chosen category attached. -/
def search_trending_topics (category base_topic : String)
    (resp : Option String) (parse : String → Option TopicFields) : TopicData :=
  match resp with
  | none => fallbackTopic category base_topic
  | some content =>
    match extractJsonSpan content.data with
    | none => fallbackTopic category base_topic
    | some m =>
      match parse (String.mk m) with
      | none => fallbackTopic category base_topic
      | some f =>
        { title := f.title, search_query := f.search_query, angle := f.angle,
          target_keywords := f.target_keywords,
          search_intent := f.search_intent, category := category }

/-- research_topic from the source: the reply content, or the empty
string on any error. -/
def research_topic (resp : Option String) : String :=
  match resp with
  | some content => content
  | none => ""

/-- The fields of a parsed content reply. -/
structure ContentFields where
  title : String
  meta_description : String
  content : String
  excerpt : Option String
  tags : Option (List String)
  deriving DecidableEq

/-- generate_blog_content from the source: on any request failure,
missing embedded JSON, or parse failure, no payload; on success the
payload with the topic category and keywords attached.  The research
text only feeds the prompt. -/
def generate_blog_content (topic : TopicData) (_research : String)
    (resp : Option String) (parse : String → Option ContentFields) :
    Option BlogData :=
  match resp with
  | none => none
  | some content =>
    match extractJsonSpan content.data with
    | none => none
    | some m =>
      match parse (String.mk m) with
      | none => none
      | some f =>
        some { title := f.title, meta_description := f.meta_description,
               content := f.content, excerpt := f.excerpt, tags := f.tags,
               category := some topic.category,
               keywords := some (topic.target_keywords.getD []) }

/-- The four extension globs of get_random_blog_image, concatenated in
source order. -/
def globImages (files : List String) : List String :=
  files.filter (fun f => ".jpg".data.isSuffixOf f.data)
    ++ files.filter (fun f => ".jpeg".data.isSuffixOf f.data)
    ++ files.filter (fun f => ".png".data.isSuffixOf f.data)
    ++ files.filter (fun f => ".webp".data.isSuffixOf f.data)

/-- get_random_blog_image from the source: when the images directory
exists and the globs match anything, the random sampler picks one of
the matches; otherwise the hard-coded default.  files holds the
directory entries, pick is the sampler oracle. -/
def get_random_blog_image (dirExists : Bool) (files : List String)
    (pick : Nat) : String :=
  if dirExists then
    if (globImages files).isEmpty then "images/blog/ListerPros-001.jpg"
    else "images/blog/"
      ++ (globImages files).getD (pick % (globImages files).length) ""
  else "images/blog/ListerPros-001.jpg"

/-- One tag hyperlink, as generate_tags_html builds it. -/
def tagHtml (tag : String) : String :=
  "<a href=\"/blog/tag/" ++ create_slug tag
    ++ "\" class=\"inline-block bg-gray-100 text-gray-700 px-3 py-1 rounded-full text-sm hover:bg-gray-200 transition\">"
    ++ tag ++ "</a>"

/-- generate_tags_html from the source: one hyperlink per tag, joined
with newlines. -/
def generate_tags_html (tags : List String) : String :=
  String.intercalate "\n" (tags.map tagHtml)

/-- Model of Python str.replace with a nonempty pattern: scan left to
right, replace every non-overlapping occurrence and continue after it.
Fuel equal to the input length suffices since every step consumes at
least one character. -/
def replaceAllFuel : Nat → List Char → List Char → List Char → List Char
  | 0, _, _, l => l
  | _ + 1, _, _, [] => []
  | fuel + 1, pat, rep, c :: rest =>
    if pat.isPrefixOf (c :: rest) then
      rep ++ replaceAllFuel fuel pat rep ((c :: rest).drop pat.length)
    else c :: replaceAllFuel fuel pat rep rest

/-- Python str.replace on Lean strings. -/
def replaceAllS (s pat rep : String) : String :=
  String.mk (replaceAllFuel s.data.length pat.data rep.data s.data)

example : replaceAllS "a \x7b\x7bX\x7d\x7d b \x7b\x7bX\x7d\x7d" "\x7b\x7bX\x7d\x7d" "y" =
    "a y b y" := by
  decide

/-- The placeholder substitutions of save_blog_post, in source order. -/
def renderPost (template : String) (blog : BlogData) (slug : String)
    (category : String) (date_str formatted_date : String)
    (read_time : Nat) (featured_image : String) : String :=
  let h0 := replaceAllS template "\x7b\x7bTITLE\x7d\x7d" blog.title
  let h1 := replaceAllS h0 "\x7b\x7bMETA_DESCRIPTION\x7d\x7d" blog.meta_description
  let h2 := replaceAllS h1 "\x7b\x7bKEYWORDS\x7d\x7d"
    (String.intercalate ", " (blog.keywords.getD []))
  let h3 := replaceAllS h2 "\x7b\x7bSLUG\x7d\x7d" slug
  let h4 := replaceAllS h3 "\x7b\x7bCATEGORY\x7d\x7d" (format_category category)
  let h5 := replaceAllS h4 "\x7b\x7bPUBLISH_DATE\x7d\x7d" date_str
  let h6 := replaceAllS h5 "\x7b\x7bFORMATTED_DATE\x7d\x7d" formatted_date
  let h7 := replaceAllS h6 "\x7b\x7bREAD_TIME\x7d\x7d" (toString read_time)
  let h8 := replaceAllS h7 "\x7b\x7bFEATURED_IMAGE\x7d\x7d" featured_image
  let h9 := replaceAllS h8 "\x7b\x7bOG_IMAGE\x7d\x7d" featured_image
  let h10 := replaceAllS h9 "\x7b\x7bCONTENT\x7d\x7d" blog.content
  let h11 := replaceAllS h10 "\x7b\x7bTAGS\x7d\x7d"
    (generate_tags_html (blog.tags.getD []))
  replaceAllS h11 "\x7b\x7bRELATED_POSTS\x7d\x7d" ""

/-- The external inputs of save_blog_post: the post template, the two
clock renderings, and the image the sampler picked. -/
structure SaveEnv where
  template : String
  date_str : String
  formatted_date : String
  featured_image : String
  deriving DecidableEq

/-- save_blog_post from the source, in source order: derive the slug
and metadata, render and WRITE the post file, then load the index,
return no slug when the slug already exists (leaving the index alone,
the file already written), otherwise prepend the record and persist. -/
def save_blog_post (env : SaveEnv) (blog : BlogData) (st : PipelineState) :
    Option String × PipelineState :=
  let slug := create_slug blog.title
  let category := blog.category.getD "photography_tips"
  let read_time := calculate_read_time blog.content
  let html := renderPost env.template blog slug category env.date_str
    env.formatted_date read_time env.featured_image
  let post_filename := slug ++ ".html"
  let files1 := writeFile st.files post_filename html
  let post_entry : PostEntry :=
    { slug := slug, title := blog.title,
      excerpt := blog.excerpt.getD blog.meta_description,
      category := category, date := env.date_str,
      formatted_date := env.formatted_date, read_time := read_time,
      featured_image := env.featured_image, tags := blog.tags.getD [],
      filename := post_filename }
  let posts := st.postsJson.getD []
  if slug ∈ posts.map PostEntry.slug then
    (none, { files := files1, postsJson := st.postsJson,
             published := st.published })
  else
    (some slug, { files := files1, postsJson := some (post_entry :: posts),
                  published := st.published })

/-- The featured block of the index page, as the source renders the
first record. -/
def featuredHtml (p : PostEntry) : String :=
  "\n    <section class=\"py-12\">\n        <div class=\"max-w-7xl mx-auto px-4 sm:px-6 lg:px-8\">\n            <a href=\"/blog/"
    ++ p.slug
    ++ "\" class=\"group block\">\n                <div class=\"grid lg:grid-cols-2 gap-8 items-center bg-gray-50 rounded-3xl overflow-hidden card-lift\">\n                    <div class=\"aspect-video overflow-hidden\">\n                        <img src=\""
    ++ p.featured_image
    ++ "\" alt=\""
    ++ p.title
    ++ "\" class=\"w-full h-full object-cover group-hover:scale-105 transition-transform duration-500\">\n                    </div>\n                    <div class=\"p-8\">\n                        <span class=\"inline-block bg-primary/10 text-primary px-3 py-1 rounded-full text-sm font-semibold mb-4\">"
    ++ format_category p.category
    ++ "</span>\n                        <h2 class=\"text-2xl md:text-3xl font-bold mb-4 group-hover:text-primary transition\">"
    ++ p.title
    ++ "</h2>\n                        <p class=\"text-gray-600 mb-4\">"
    ++ p.excerpt
    ++ "</p>\n                        <div class=\"flex items-center gap-4 text-sm text-gray-500\">\n                            <span>"
    ++ p.formatted_date
    ++ "</span>\n                            <span>&bull;</span>\n                            <span>"
    ++ toString p.read_time
    ++ " min read</span>\n                        </div>\n                    </div>\n                </div>\n            </a>\n        </div>\n    </section>"

/-- One post card of the index page. -/
def cardHtml (p : PostEntry) : String :=
  "\n                <a href=\"/blog/"
    ++ p.slug
    ++ "\" class=\"group block bg-white rounded-2xl overflow-hidden shadow-sm hover:shadow-xl transition card-lift\">\n                    <div class=\"aspect-video overflow-hidden\">\n                        <img src=\""
    ++ p.featured_image
    ++ "\" alt=\""
    ++ p.title
    ++ "\" class=\"w-full h-full object-cover group-hover:scale-105 transition-transform duration-500\">\n                    </div>\n                    <div class=\"p-6\">\n                        <span class=\"inline-block bg-primary/10 text-primary px-2 py-0.5 rounded text-xs font-semibold mb-2\">"
    ++ format_category p.category
    ++ "</span>\n                        <h3 class=\"font-bold text-lg mb-2 group-hover:text-primary transition line-clamp-2\">"
    ++ p.title
    ++ "</h3>\n                        <p class=\"text-gray-600 text-sm mb-4 line-clamp-2\">"
    ++ p.excerpt
    ++ "</p>\n                        <div class=\"flex items-center gap-3 text-xs text-gray-500\">\n                            <span>"
    ++ p.formatted_date
    ++ "</span>\n                            <span>&bull;</span>\n                            <span>"
    ++ toString p.read_time
    ++ " min read</span>\n                        </div>\n                    </div>\n                </a>"

/-- The always-active page-one span of the pagination control. -/
def pageOneSpan : String :=
  "<span class=\"px-4 py-2 bg-primary text-white rounded-lg\">1</span>"

/-- The page-two link appended when the list exceeds 21 records. -/
def pageTwoLink : String :=
  "<a href=\"/blog/page/2\" class=\"px-4 py-2 bg-gray-100 text-gray-700 rounded-lg hover:bg-gray-200 transition\">2</a>"

/-- The index page content: featured block from the head record, cards
accumulated over the records at positions one through twenty, trivial
pagination, substituted into the three template placeholders. -/
def generateIndexHtml (template : String) (posts : List PostEntry) : String :=
  let featured_html := match posts with
    | [] => ""
    | p :: _ => featuredHtml p
  let cards_html := ((posts.drop 1).take 20).foldl
    (fun acc p => acc ++ cardHtml p) ""
  let pagination_html := pageOneSpan
    ++ (if posts.length > 21 then pageTwoLink else "")
  let h1 := replaceAllS template "\x7b\x7bFEATURED_POST\x7d\x7d" featured_html
  let h2 := replaceAllS h1 "\x7b\x7bPOST_CARDS\x7d\x7d" cards_html
  replaceAllS h2 "\x7b\x7bPAGINATION\x7d\x7d" pagination_html

/-- generate_index_page from the source: no-op when posts.json does not
exist, otherwise write the regenerated page to index.html. -/
def generate_index_page (template : String) (st : PipelineState) :
    PipelineState :=
  match st.postsJson with
  | none => st
  | some posts =>
    { files := writeFile st.files "index.html" (generateIndexHtml template posts),
      postsJson := st.postsJson, published := st.published }

/-- git_commit_and_push modelled on the state: the publish flag is
raised; the working tree and index file are untouched. -/
def git_commit_and_push (st : PipelineState) : PipelineState :=
  { files := st.files, postsJson := st.postsJson, published := true }

/-- All external inputs of one pipeline run. -/
structure MainEnv where
  apiKeyPresent : Bool
  category : String
  base_topic : String
  topicResp : Option String
  topicParse : String → Option TopicFields
  researchResp : Option String
  contentResp : Option String
  contentParse : String → Option ContentFields
  saveEnv : SaveEnv
  indexTemplate : String
  ci : Bool

/-- main from the source: abort on a missing key; topic and research
with absorbable failures; content generation, aborting the run when it
returns no payload; save, aborting when the slug is a duplicate;
regenerate the index; publish only in a continuous-integration
environment. -/
def mainRun (env : MainEnv) (st : PipelineState) : PipelineState :=
  if env.apiKeyPresent = false then st
  else
    let topic := search_trending_topics env.category env.base_topic
      env.topicResp env.topicParse
    let research := research_topic env.researchResp
    match generate_blog_content topic research env.contentResp
        env.contentParse with
    | none => st
    | some blog =>
      match save_blog_post env.saveEnv blog st with
      | (none, st1) => st1
      | (some _, st1) =>
        let st2 := generate_index_page env.indexTemplate st1
        if env.ci then git_commit_and_push st2 else st2

/-! Claim C1: duplicate-slug handling in save_blog_post. -/

/-- The post template of the concrete duplicate scenario. -/
def c1Env : SaveEnv :=
  { template := "T:\x7b\x7bTITLE\x7d\x7d", date_str := "2026-01-01",
    formatted_date := "January 01, 2026",
    featured_image := "images/blog/ListerPros-001.jpg" }

/-- An index record already holding the slug of the incoming title. -/
def c1Entry : PostEntry :=
  { slug := "drone-photography-tips", title := "Drone Photography Tips",
    excerpt := "e", category := "photography_tips", date := "2025-12-31",
    formatted_date := "December 31, 2025", read_time := 1,
    featured_image := "i.jpg", tags := [],
    filename := "drone-photography-tips.html" }

/-- A payload whose title derives to the already-present slug. -/
def c1Blog : BlogData :=
  { title := "Drone Photography Tips", meta_description := "m",
    content := "<p>w</p>", excerpt := none, tags := none, category := none,
    keywords := none }

/-- The state before the duplicate save: empty working tree, one
record. -/
def c1State : PipelineState :=
  { files := [], postsJson := some [c1Entry], published := false }

/-- Claim C1, counterexample: on a duplicate slug the function returns
no slug and leaves the persisted list unchanged, but the HTML file IS
produced by the call, so the working tree is not unchanged. -/
theorem save_blog_post_duplicate_counterexample :
    (save_blog_post c1Env c1Blog c1State).1 = none ∧
    (save_blog_post c1Env c1Blog c1State).2.postsJson = c1State.postsJson ∧
    (save_blog_post c1Env c1Blog c1State).2.files ≠ c1State.files :=
  ⟨by decide, by decide, by decide⟩

/-- Claim C1 (amended): when the derived slug already exists in the
index, save_blog_post returns no slug and leaves the persisted posts
list unchanged, but the post HTML file has already been written by the
call (the file write precedes the duplicate check). -/
theorem save_blog_post_duplicate_spec (env : SaveEnv) (blog : BlogData)
    (st : PipelineState)
    (h : create_slug blog.title ∈ (st.postsJson.getD []).map PostEntry.slug) :
    (save_blog_post env blog st).1 = none ∧
    (save_blog_post env blog st).2.postsJson = st.postsJson ∧
    (save_blog_post env blog st).2.files =
      writeFile st.files (create_slug blog.title ++ ".html")
        (renderPost env.template blog (create_slug blog.title)
          (blog.category.getD "photography_tips") env.date_str
          env.formatted_date (calculate_read_time blog.content)
          env.featured_image) := by
  simp only [save_blog_post]
  rw [if_pos h]
  exact ⟨rfl, rfl, rfl⟩

/-- Claim C1 witness: the amended statement applied to the concrete
duplicate scenario. -/
theorem save_blog_post_duplicate_spec_witness :
    (save_blog_post c1Env c1Blog c1State).1 = none ∧
    (save_blog_post c1Env c1Blog c1State).2.postsJson = c1State.postsJson :=
  have h := save_blog_post_duplicate_spec c1Env c1Blog c1State (by decide)
  ⟨h.1, h.2.1⟩

/-! Claim C5: a content-generation failure aborts the run. -/

/-- Claim C5: when the content reply is received but holds no JSON
object the parser accepts, generate_blog_content returns no payload and
the whole run leaves the state untouched: no file is written, the index
is not mutated, and the publish step is not invoked. -/
theorem content_failure_aborts (env : MainEnv) (st : PipelineState)
    (c : String)
    (hresp : env.contentResp = some c)
    (hparse : ∀ m, extractJsonSpan c.data = some m →
      env.contentParse (String.mk m) = none) :
    generate_blog_content
        (search_trending_topics env.category env.base_topic env.topicResp
          env.topicParse)
        (research_topic env.researchResp) env.contentResp env.contentParse
      = none ∧
    mainRun env st = st := by
  have hnone : generate_blog_content
      (search_trending_topics env.category env.base_topic env.topicResp
        env.topicParse)
      (research_topic env.researchResp) env.contentResp env.contentParse
      = none := by
    unfold generate_blog_content
    rw [hresp]
    cases hx : extractJsonSpan c.data with
    | none => simp [hx]
    | some m => simp [hx, hparse m hx]
  refine ⟨hnone, ?_⟩
  unfold mainRun
  by_cases hk : env.apiKeyPresent = false
  · rw [if_pos hk]
  · rw [if_neg hk]
    simp only [hnone]

/-- The concrete failing run of claim C5: the key is present, topic and
research requests fail (absorbable), the content request succeeds but
returns free text with no braces. -/
def c5Env : MainEnv :=
  { apiKeyPresent := true, category := "photography_tips",
    base_topic := "how to photograph pools and outdoor spaces",
    topicResp := none, topicParse := fun _ => none,
    researchResp := none, contentResp := some "no json in this reply",
    contentParse := fun _ => none,
    saveEnv := { template := "X", date_str := "2026-01-01",
                 formatted_date := "January 01, 2026",
                 featured_image := "i.jpg" },
    indexTemplate := "Y", ci := true }

/-- A state with one already-persisted post, to observe that nothing
changes. -/
def c5State : PipelineState :=
  { files := [("old.html", "old")], postsJson := some [], published := false }

/-- Claim C5 witness: the abort theorem applied to the concrete failing
run. -/
theorem content_failure_aborts_witness :
    mainRun c5Env c5State = c5State :=
  (content_failure_aborts c5Env c5State "no json in this reply" rfl
    (fun _ hm => by
      rw [show extractJsonSpan "no json in this reply".data = none by decide] at hm
      exact Option.noConfusion hm)).2

/-! Claim C6: shape of the regenerated index page. -/

theorem foldl_append_map_cards (l : List PostEntry) :
    l.foldl (fun acc p => acc ++ cardHtml p) "" =
      String.join (l.map cardHtml) := by
  unfold String.join
  rw [List.foldl_map]

/-- Claim C6: for a non-empty persisted list the page is the template
with the featured slot filled from the head record, the card block
filled with exactly the cards of the records at positions one through
twenty (fewer when the list is shorter), and the pagination filled with
the always-active page one plus a page-two link exactly when the list
holds more than 21 records. -/
theorem generate_index_page_spec (tmpl : String) (posts : List PostEntry)
    (h : posts ≠ []) :
    ∃ featured rest, posts = featured :: rest ∧
      generateIndexHtml tmpl posts =
        replaceAllS (replaceAllS (replaceAllS tmpl
            "\x7b\x7bFEATURED_POST\x7d\x7d" (featuredHtml featured))
          "\x7b\x7bPOST_CARDS\x7d\x7d"
          (String.join ((rest.take 20).map cardHtml)))
          "\x7b\x7bPAGINATION\x7d\x7d"
          (pageOneSpan ++ (if 21 < posts.length then pageTwoLink else "")) ∧
      ((rest.take 20).map cardHtml).length = min rest.length 20 := by
  obtain ⟨featured, rest, rfl⟩ := List.exists_cons_of_ne_nil h
  refine ⟨featured, rest, rfl, ?_, ?_⟩
  · unfold generateIndexHtml
    rw [← foldl_append_map_cards]
    simp only [List.drop_succ_cons, List.drop_zero, List.length_cons,
      gt_iff_lt]
  · rw [List.length_map, List.length_take, Nat.min_comm]

/-- A sample record for the index-page witness. -/
def c6Entry : PostEntry :=
  { slug := "drone-photography-tips", title := "Drone Photography Tips",
    excerpt := "e", category := "photography_tips", date := "2025-12-31",
    formatted_date := "December 31, 2025", read_time := 1,
    featured_image := "i.jpg", tags := [],
    filename := "drone-photography-tips.html" }

/-- Claim C6 witness: a two-record list, applied to the theorem. -/
theorem generate_index_page_spec_witness :
    ∃ featured rest, [c6Entry, c6Entry] = featured :: rest ∧
      generateIndexHtml "Z" [c6Entry, c6Entry] =
        replaceAllS (replaceAllS (replaceAllS "Z"
            "\x7b\x7bFEATURED_POST\x7d\x7d" (featuredHtml featured))
          "\x7b\x7bPOST_CARDS\x7d\x7d"
          (String.join ((rest.take 20).map cardHtml)))
          "\x7b\x7bPAGINATION\x7d\x7d"
          (pageOneSpan ++
            (if 21 < ([c6Entry, c6Entry] : List PostEntry).length
              then pageTwoLink else "")) ∧
      ((rest.take 20).map cardHtml).length = min rest.length 20 :=
  generate_index_page_spec "Z" [c6Entry, c6Entry] (by decide)

/-! Claim C7: featured-image selection. -/

/-- Claim C7, counterexample: with no images directory the function
immediately returns the hard-coded local default; no per-category list
of external image URLs is consulted (none exists in the source, and the
result is a local path, not a URL). -/
theorem get_random_blog_image_counterexample :
    get_random_blog_image false [] 0 = "images/blog/ListerPros-001.jpg" ∧
      ¬ "http".data.isPrefixOf (get_random_blog_image false [] 0).data :=
  ⟨by decide, by decide⟩

/-- Claim C7 (amended): when the directory exists and the extension
globs match at least one file, the selection is the sampled member of
the glob list under the images path; in every other case it is the
hard-coded default image.  There is no per-category external URL
list. -/
theorem get_random_blog_image_spec (dirExists : Bool) (files : List String)
    (pick : Nat) :
    (dirExists = true → globImages files ≠ [] →
      get_random_blog_image dirExists files pick ∈
        (globImages files).map (fun f => "images/blog/" ++ f)) ∧
    (dirExists = false ∨ globImages files = [] →
      get_random_blog_image dirExists files pick =
        "images/blog/ListerPros-001.jpg") := by
  constructor
  · intro hd hne
    unfold get_random_blog_image
    rw [hd]
    have hie : (globImages files).isEmpty = false := by
      rw [List.isEmpty_eq_false]
      exact hne
    rw [if_pos rfl, if_neg (by rw [hie]; exact Bool.false_ne_true)]
    have hlt : pick % (globImages files).length < (globImages files).length :=
      Nat.mod_lt _ (List.length_pos.mpr hne)
    rw [List.getD_eq_getElem _ _ hlt]
    exact List.mem_map_of_mem _ (List.getElem_mem hlt)
  · intro hcase
    unfold get_random_blog_image
    rcases hcase with hd | hge
    · rw [hd]
      simp
    · rw [hge]
      simp

/-- Claim C7 witness: a directory with one matching file, applied to
the theorem. -/
theorem get_random_blog_image_spec_witness :
    get_random_blog_image true ["a.jpg", "b.png"] 1 ∈
      (globImages ["a.jpg", "b.png"]).map (fun f => "images/blog/" ++ f) :=
  (get_random_blog_image_spec true ["a.jpg", "b.png"] 1).1 rfl (by decide)

/-! Claim C8: topic selection never fails the run. -/

/-- Claim C8: on a transport failure, a reply without an embedded JSON
object, or a parse failure, search_trending_topics returns the
deterministic fallback descriptor built purely from the locally chosen
seed: the title-cased seed as title and its first three words as
keyword list.  The function is total, so the result is always a
descriptor. -/
theorem search_trending_topics_fallback (category base_topic : String)
    (resp : Option String) (parse : String → Option TopicFields)
    (h : resp = none ∨ ∃ c, resp = some c ∧
      (extractJsonSpan c.data = none ∨
        ∃ m, extractJsonSpan c.data = some m ∧ parse (String.mk m) = none)) :
    search_trending_topics category base_topic resp parse =
      fallbackTopic category base_topic ∧
    (search_trending_topics category base_topic resp parse).title =
      titleCase base_topic ∧
    (search_trending_topics category base_topic resp parse).target_keywords =
      some (((wordsOf base_topic.data).map String.mk).take 3) := by
  have heq : search_trending_topics category base_topic resp parse =
      fallbackTopic category base_topic := by
    unfold search_trending_topics
    rcases h with rfl | ⟨c, rfl, h2⟩
    · rfl
    · rcases h2 with h2 | ⟨m, hm, hp⟩
      · simp [h2]
      · simp [hm, hp]
  exact ⟨heq, by rw [heq]; rfl, by rw [heq]; rfl⟩

/-- Claim C8 witness: a failing transport, applied to the theorem. -/
theorem search_trending_topics_fallback_witness :
    search_trending_topics "photography_tips"
        "how to photograph pools and outdoor spaces" none (fun _ => none) =
      fallbackTopic "photography_tips"
        "how to photograph pools and outdoor spaces" :=
  (search_trending_topics_fallback "photography_tips"
    "how to photograph pools and outdoor spaces" none (fun _ => none)
    (Or.inl rfl)).1

/-! Claim C9: index regeneration is idempotent. -/

theorem writeFile_idem (fs : List (String × String)) (n c : String) :
    writeFile (writeFile fs n c) n c = writeFile fs n c := by
  induction fs with
  | nil => simp [writeFile]
  | cons kv rest ih =>
    obtain ⟨k, v⟩ := kv
    by_cases hk : k = n
    · simp [writeFile, hk]
    · simp [writeFile, hk, ih]

/-- Claim C9: regenerating the index page twice from the same persisted
list and template produces the same state as regenerating it once; in
particular the bytes written to index.html are identical. -/
theorem generate_index_page_idempotent (tmpl : String) (st : PipelineState) :
    generate_index_page tmpl (generate_index_page tmpl st) =
      generate_index_page tmpl st := by
  cases hp : st.postsJson with
  | none => simp [generate_index_page, hp]
  | some posts => simp [generate_index_page, hp, writeFile_idem]

/-! Claim C10: titles with no ASCII letters or digits. -/

/-- Claim C10, counterexample state: a record with the empty slug is
already present. -/
def c10EmptyEntry : PostEntry :=
  { slug := "", title := "???", excerpt := "e",
    category := "photography_tips", date := "2026-01-01",
    formatted_date := "January 01, 2026", read_time := 1,
    featured_image := "i.jpg", tags := [], filename := ".html" }

/-- The environment of the concrete empty-slug scenario. -/
def c10Env : SaveEnv :=
  { template := "X", date_str := "2026-01-02",
    formatted_date := "January 02, 2026", featured_image := "img.jpg" }

/-- The payload with an all-punctuation title. -/
def c10Blog : BlogData :=
  { title := "!!!", meta_description := "m", content := "hi",
    excerpt := none, tags := none, category := none, keywords := none }

/-- A state already holding an empty-slug record. -/
def c10State : PipelineState :=
  { files := [], postsJson := some [c10EmptyEntry], published := false }

/-- Claim C10, counterexample: when a record with the empty slug is
already in the index, a second all-punctuation title is NOT recorded:
the call returns no slug and the index is unchanged, contradicting the
claim that the empty string is recorded as the entry slug for every
such payload. -/
theorem empty_slug_counterexample :
    create_slug "!!!" = "" ∧
    (save_blog_post c10Env c10Blog c10State).1 = none ∧
    (save_blog_post c10Env c10Blog c10State).2.postsJson =
      c10State.postsJson :=
  ⟨by decide, by decide, by decide⟩

/-- Claim C10 (amended): a title with no ASCII letters or digits slugs
to the empty string, and save_blog_post always writes the post file
under the name ".html"; when no record with the empty slug exists yet,
an entry with the empty slug and that filename is prepended, so all
such titles collide on the one empty slug; when such a record already
exists the call returns no slug and the index is unchanged, the file
write having happened anyway. -/
theorem empty_slug_behavior (env : SaveEnv) (blog : BlogData)
    (st : PipelineState)
    (h : ∀ c ∈ blog.title.data, c.isAlpha = false ∧ c.isDigit = false) :
    create_slug blog.title = "" ∧
    (save_blog_post env blog st).2.files =
      writeFile st.files ".html"
        (renderPost env.template blog ""
          (blog.category.getD "photography_tips") env.date_str
          env.formatted_date (calculate_read_time blog.content)
          env.featured_image) ∧
    ("" ∉ (st.postsJson.getD []).map PostEntry.slug →
      (save_blog_post env blog st).1 = some "" ∧
      (save_blog_post env blog st).2.postsJson =
        some ({ slug := "", title := blog.title,
                excerpt := blog.excerpt.getD blog.meta_description,
                category := blog.category.getD "photography_tips",
                date := env.date_str, formatted_date := env.formatted_date,
                read_time := calculate_read_time blog.content,
                featured_image := env.featured_image,
                tags := blog.tags.getD [], filename := ".html" } ::
              st.postsJson.getD [])) ∧
    ("" ∈ (st.postsJson.getD []).map PostEntry.slug →
      (save_blog_post env blog st).1 = none ∧
      (save_blog_post env blog st).2.postsJson = st.postsJson) := by
  have hslug : create_slug blog.title = "" := by
    unfold create_slug
    rw [create_slugL_all_stripped blog.title.data h]
  have hpre : ("" : String) ++ ".html" = ".html" := rfl
  refine ⟨hslug, ?_, ?_, ?_⟩
  · simp only [save_blog_post, hslug, hpre]
    try split
    all_goals rfl
  · intro hni
    simp only [save_blog_post, hslug, hpre]
    rw [if_neg hni]
    exact ⟨rfl, rfl⟩
  · intro hin
    simp only [save_blog_post, hslug, hpre]
    rw [if_pos hin]
    exact ⟨rfl, rfl⟩

/-- A fresh state with an existing but empty index file. -/
def c10FreshState : PipelineState :=
  { files := [], postsJson := some [], published := false }

/-- Claim C10 witness: the amended statement applied to the concrete
all-punctuation payload on a fresh index. -/
theorem empty_slug_behavior_witness :
    create_slug "!!!" = "" ∧
      (save_blog_post c10Env c10Blog c10FreshState).1 = some "" :=
  have h := empty_slug_behavior c10Env c10Blog c10FreshState (by decide)
  ⟨h.1, (h.2.2.1 (by decide)).1⟩

end ListerPros
